import Mathlib

/-!
Shallow embedding of the differential cache layer of
`src/utils/local_cache.py` (`class LocalCache`) together with its row store
executor (`_execute_on_database`, `_ensure_tuple_format`).

Modeling conventions:
* Python scalar values are modeled by `Val`; a row (positional tuple of
  scalars) by `Row`; a parameter dict by an insertion-ordered association
  list `Params`.
* The three SQLite tables (`query_cache`, `row_cache`, `deleted_rows`) are
  modeled by lists of entry structures in table-scan (insertion) order.
  The unused `row_cache.created_at` column (written only through its SQLite
  `DEFAULT CURRENT_TIMESTAMP` and never read by any method) is omitted.
* Timestamps are abstract natural numbers measured in hours;
  `datetime.now()` / SQLite `datetime('now')` is the explicit `now`
  argument of each operation.  SQLite `datetime(d) < datetime('now', '-H
  hours')` becomes `d + H < now`, and `datetime(d) > datetime('now', '-h
  hours')` becomes `now < d + h` (both comparisons are strict in the
  source).
* The md5 hex digests used for query and row identities are modeled by the
  digest pre-images (`sql + str(params or {})` and
  `'|'.join(str(item) for item in row)`), i.e. md5 is treated as injective;
  the spec itself accepts fingerprint collisions as an out-of-scope risk.
* Python exceptions become `Except PyErr`; a raised exception inside an
  open sqlite transaction rolls the write phase back, so an operation that
  fails after the automatic cleanup returns the post-cleanup state.
-/

namespace LocalCache

/-- Python scalar value: an integer or a string (the scalar shapes the
source and the spec exercise). -/
inductive Val : Type
  | int : Int → Val
  | str : String → Val
deriving DecidableEq

/-- A row: ordered tuple of scalar column values (`tuple` in the source). -/
abbrev Row := List Val

/-- A query parameter mapping (`Dict` in the source): insertion-ordered
key/value pairs. -/
abbrev Params := List (String × Val)

/-- Python `str` of a scalar, as used by `_get_row_hash`. -/
def pyStr : Val → String
  | .int i => toString i
  | .str s => s

/-- The single-quote character as a string (written via its code point). -/
def squote : String := String.singleton (Char.ofNat 39)

/-- The double-quote character as a string. -/
def dquote : String := String.singleton (Char.ofNat 34)

/-- The backslash character as a string. -/
def backslash : String := String.singleton (Char.ofNat 92)

/-- Python `repr` of a string as it appears inside `str(dict)`:
double-quoted when the string contains a single quote and no double quote,
otherwise single-quoted with embedded single quotes escaped. -/
def pyReprStr (s : String) : String :=
  if s.contains (Char.ofNat 39) && !(s.contains (Char.ofNat 34)) then
    dquote ++ s ++ dquote
  else
    squote ++ (s.replace squote (backslash ++ squote)) ++ squote

/-- Python `repr` of a scalar dict value. -/
def pyReprVal : Val → String
  | .int i => toString i
  | .str s => pyReprStr s

/-- Python `str` of a parameter dict, `\x7b'k': v, ...\x7d` in insertion
order; the empty dict prints as `\x7b\x7d`. -/
def dictStr (ps : Params) : String :=
  if ps.isEmpty then "\x7b\x7d"
  else
    "\x7b" ++
      String.intercalate ", "
        (ps.map (fun kv => pyReprStr kv.1 ++ ": " ++ pyReprVal kv.2)) ++
      "\x7d"

/-- `LocalCache._get_query_hash`: md5 of `sql + str(params or {})`, modeled
by the digest pre-image.  `params = none` models Python `None`; note that
`None or {}` and `{} or {}` both evaluate to `{}`. -/
def getQueryHash (sql : String) (params : Option Params) : String :=
  sql ++ dictStr (params.getD [])

/-- `LocalCache._get_row_hash`: md5 of `'|'.join(str(item) for item in
row)`, modeled by the pre-image. -/
def rowHashStr (r : Row) : String :=
  String.intercalate "|" (r.map pyStr)

/-- Python exceptions arising in the embedded code. -/
inductive PyErr : Type
  | attributeError : String → PyErr
  | typeError : String → PyErr
  | exception : String → PyErr
deriving DecidableEq

/-- Python `str(e)` / `f"{e}"`. -/
def pyErrMsg : PyErr → String
  | .attributeError m => m
  | .typeError m => m
  | .exception m => m

/-- The class of a raised exception — what an `except SomeError:` clause
can discriminate on. -/
def pyErrClass : PyErr → String
  | .attributeError _ => "AttributeError"
  | .typeError _ => "TypeError"
  | .exception _ => "Exception"

/-- Class of the error of a failed computation, `none` on success. -/
def exceptErrClass {α : Type} : Except PyErr α → Option String
  | .error e => some (pyErrClass e)
  | .ok _ => none

/-- One element of a result sequence returned by the database collaborator:
a tuple row, a list row, a dict record, or a bare scalar. -/
inductive DbItem : Type
  | tup : Row → DbItem
  | lst : Row → DbItem
  | dict : List (String × Val) → DbItem
  | scalar : Val → DbItem
deriving DecidableEq

/-- A raw collaborator result: a Python list of items, a single tuple, or a
falsy `None`. -/
inductive DbResult : Type
  | pylist : List DbItem → DbResult
  | pytuple : Row → DbResult
  | pynone : DbResult
deriving DecidableEq

/-- The injected database collaborator (`db_connection_class`).  Each
optional field models `hasattr(...)`: `some f` when the method exists.  A
present method may itself raise, hence the `Except`. -/
structure DbConn where
  className : String
  execute_query : Option (String → Option Params → Except PyErr DbResult) := none
  query : Option (String → Option Params → Except PyErr DbResult) := none
  fetch_all : Option (String → Option Params → Except PyErr DbResult) := none
  select : Option (String → Option Params → Except PyErr DbResult) := none

/-- Left-to-right effectful map over a list, stopping at the first raised
exception (Python list comprehension / sequential loop semantics). -/
def exceptMap {α β : Type} (f : α → Except PyErr β) : List α → Except PyErr (List β)
  | [] => .ok []
  | a :: rest =>
    match f a with
    | .error e => .error e
    | .ok b =>
      match exceptMap f rest with
      | .error e => .error e
      | .ok bs => .ok (b :: bs)

/-- Python `tuple(row)`: identity on tuples, list-to-tuple conversion,
iterates the KEYS of a dict, and raises `TypeError` on a scalar. -/
def tupleOfItem : DbItem → Except PyErr DbItem
  | .tup r => .ok (.tup r)
  | .lst r => .ok (.tup r)
  | .dict kvs => .ok (.tup (kvs.map (fun kv => Val.str kv.1)))
  | .scalar _ => .error (.typeError "object is not iterable")

/-- Python `tuple(row.values())`: tuple of a dict's values in iteration
order; anything without a `values` method raises `AttributeError`. -/
def tupleOfValues : DbItem → Except PyErr DbItem
  | .dict kvs => .ok (.tup (kvs.map (fun kv => kv.2)))
  | _ => .error (.attributeError "object has no attribute values")

/-- `LocalCache._ensure_tuple_format` (lines 120-136): decides the shape of
the whole result from its first element. -/
def ensureTupleFormat : DbResult → Except PyErr (List DbItem)
  | .pynone => .ok []
  | .pytuple [] => .ok []
  | .pytuple (v :: r) => .ok [.tup (v :: r)]
  | .pylist [] => .ok []
  | .pylist (first :: rest) =>
    match first with
    | .tup _ => .ok (first :: rest)
    | .lst _ => exceptMap tupleOfItem (first :: rest)
    | .dict _ => exceptMap tupleOfValues (first :: rest)
    | .scalar _ => .ok []

/-- The capability probing of `_execute_on_database` (lines 101-108): the
first present method among `execute_query`, `query`, `fetch_all`, `select`
in that fixed priority order. -/
def capabilityOf (conn : DbConn) : Option (String → Option Params → Except PyErr DbResult) :=
  match conn.execute_query with
  | some f => some f
  | none =>
    match conn.query with
    | some f => some f
    | none =>
      match conn.fetch_all with
      | some f => some f
      | none => conn.select

/-- `LocalCache._execute_on_database` (lines 96-118): probe for a
capability, invoke it, normalize the result; the whole body sits in a `try`
whose blanket `except Exception` re-raises everything — including the
`AttributeError` raised when no capability exists — wrapped in a single
generic `Exception` with a fixed message prefix. -/
def executeOnDatabase (conn : DbConn) (sql : String) (params : Option Params) :
    Except PyErr (List DbItem) :=
  let attempt : Except PyErr (List DbItem) :=
    match capabilityOf conn with
    | none =>
      .error (.attributeError
        ("Classe " ++ conn.className ++
         " não possui método compatível (execute_query, query, fetch_all, ou select)"))
    | some f =>
      match f sql params with
      | .error e => .error e
      | .ok r => ensureTupleFormat r
  match attempt with
  | .ok items => .ok items
  | .error e => .error (.exception ("Erro ao executar query no banco: " ++ pyErrMsg e))

/-- One `query_cache` record. -/
structure QueryEntry where
  query_hash : String
  query_sql : String
  created_at : Nat
  updated_at : Nat
  total_rows : Nat
deriving DecidableEq

/-- One `row_cache` record (an Active Row Entry). -/
structure RowEntry where
  query_hash : String
  row_hash : String
  row_data : Row
deriving DecidableEq

/-- One `deleted_rows` record (a Deleted Row Entry). -/
structure DeletedEntry where
  query_hash : String
  row_hash : String
  row_data : Row
  deleted_at : Nat
deriving DecidableEq

/-- The persistent store: the three SQLite tables. -/
structure CacheState where
  query_cache : List QueryEntry
  row_cache : List RowEntry
  deleted_rows : List DeletedEntry
deriving DecidableEq

/-- The store right after `_init_cache_db` on a fresh file. -/
def emptyState : CacheState := ⟨[], [], []⟩

/-- `LocalCache._cache_exists`: `SELECT COUNT(*) FROM query_cache WHERE
query_hash = ?` is positive. -/
def cacheExists (s : CacheState) (q : String) : Bool :=
  s.query_cache.any (fun e => e.query_hash == q)

/-- `LocalCache._cleanup_old_deleted_records` (lines 156-171):
`DELETE FROM deleted_rows WHERE datetime(deleted_at) < datetime('now', '-H
hours')`, where `H` is `keep_deleted_hours`.  Also the body of the manual
`cleanup_old_deleted_records`. -/
def cleanupDeleted (H now : Nat) (s : CacheState) : CacheState :=
  { s with deleted_rows := s.deleted_rows.filter (fun e => !(decide (e.deleted_at + H < now))) }

/-- Row identity of one result item, `_get_row_hash(row_tuple)`: iterating
a tuple or list yields its elements, iterating a dict yields its keys, and
iterating a scalar raises `TypeError`. -/
def getRowHashItem : DbItem → Except PyErr String
  | .tup r => .ok (rowHashStr r)
  | .lst r => .ok (rowHashStr r)
  | .dict kvs => .ok (String.intercalate "|" (kvs.map (fun kv => kv.1)))
  | .scalar _ => .error (.typeError "object is not iterable")

/-- The serialized form a result item takes in `row_data`
(`json.dumps(list(row_tuple))`, read back by `tuple(json.loads(...))`):
`list(...)` of a tuple/list is its elements, of a dict its keys, and of a
scalar a `TypeError`.  A scalar fails the row-hash loop (lines 207-210)
before any serialization is attempted, with the same `TypeError`, so
computing both per item in one pass is behavior-preserving. -/
def itemStoredRow : DbItem → Except PyErr Row
  | .tup r => .ok r
  | .lst r => .ok r
  | .dict kvs => .ok (kvs.map (fun kv => Val.str kv.1))
  | .scalar _ => .error (.typeError "object is not iterable")

/-- Hash and serialized row of one result item. -/
def prepItem (it : DbItem) : Except PyErr (String × DbItem × Row) :=
  match getRowHashItem it with
  | .error e => .error e
  | .ok h =>
    match itemStoredRow it with
    | .error e => .error e
    | .ok r => .ok (h, it, r)

/-- The `for row_tuple in new_data` hashing loop (lines 207-210). -/
def prepItems : List DbItem → Except PyErr (List (String × DbItem × Row)) :=
  exceptMap prepItem

/-- Python dict assignment `d[k] = v`: replaces the value in place when the
key is present (keys of a dict are unique), appends otherwise. -/
def dictUpd {α : Type} : List (String × α) → String → α → List (String × α)
  | [], k, v => [(k, v)]
  | p :: ps, k, v => if p.1 == k then (k, v) :: ps else p :: dictUpd ps k v

/-- Building a Python dict by inserting pairs left to right (the
`new_data_by_hash` / `cached_data` construction loops). -/
def buildD {α : Type} (ps : List (String × α)) : List (String × α) :=
  ps.foldl (fun m p => dictUpd m p.1 p.2) []

/-- Total stand-in for the Python dict lookup `new_data_by_hash[h]`; only
invoked at keys present in the dict. -/
def dfind (d : List (String × DbItem × Row)) (h : String) : DbItem × Row :=
  (((d.find? (fun p => p.1 == h)).map Prod.snd).getD (DbItem.tup [], []))

/-- Total stand-in for the Python dict lookup `cached_data[h]`. -/
def dfindR (d : List (String × Row)) (h : String) : Row :=
  (((d.find? (fun p => p.1 == h)).map Prod.snd).getD [])

/-- `INSERT OR REPLACE INTO query_cache` keyed on `query_hash`. -/
def insertOrReplaceQC (l : List QueryEntry) (e : QueryEntry) : List QueryEntry :=
  if l.any (fun x => x.query_hash == e.query_hash) then
    l.map (fun x => if x.query_hash == e.query_hash then e else x)
  else l ++ [e]

/-- `INSERT OR REPLACE INTO deleted_rows` keyed on
`(query_hash, row_hash)`. -/
def insertOrReplaceD (l : List DeletedEntry) (e : DeletedEntry) : List DeletedEntry :=
  if l.any (fun x => x.query_hash == e.query_hash && x.row_hash == e.row_hash) then
    l.map (fun x => if x.query_hash == e.query_hash && x.row_hash == e.row_hash then e else x)
  else l ++ [e]

/-- `LocalCache._save_to_cache` (lines 431-451): upsert the query entry,
delete this query's active rows, insert one active row per dict entry. -/
def saveToCache (s : CacheState) (q sql : String) (now : Nat)
    (d : List (String × DbItem × Row)) : CacheState :=
  { s with
    query_cache := insertOrReplaceQC s.query_cache ⟨q, sql, now, now, d.length⟩,
    row_cache :=
      s.row_cache.filter (fun e => !(e.query_hash == q)) ++
        d.map (fun p => (⟨q, p.1, p.2.2⟩ : RowEntry)) }

/-- `LocalCache._move_to_deleted` (lines 474-492): upsert one deleted entry
per removed hash stamped `now`, then delete those rows from `row_cache`. -/
def moveToDeleted (s : CacheState) (q : String) (removedKeys : List String)
    (cachedDict : List (String × Row)) (now : Nat) : CacheState :=
  { s with
    deleted_rows :=
      (removedKeys.map (fun h => (⟨q, h, dfindR cachedDict h, now⟩ : DeletedEntry))).foldl
        insertOrReplaceD s.deleted_rows,
    row_cache :=
      s.row_cache.filter (fun e => !(e.query_hash == q && removedKeys.contains e.row_hash)) }

/-- `LocalCache._update_cache` (lines 453-472): refresh the query entry's
`updated_at` / `total_rows`, insert one active row per added hash. -/
def updateCache (s : CacheState) (q : String) (now : Nat)
    (newDict : List (String × DbItem × Row)) (addedKeys : List String) : CacheState :=
  { s with
    query_cache :=
      s.query_cache.map (fun e =>
        if e.query_hash == q then { e with updated_at := now, total_rows := newDict.length } else e),
    row_cache :=
      if addedKeys.isEmpty then s.row_cache
      else s.row_cache ++ addedKeys.map (fun h => (⟨q, h, (dfind newDict h).2⟩ : RowEntry)) }

/-- The result dict of `process_select`.  `total_cached` is `none` on the
first-run branch, which omits the key. -/
structure SelectResult where
  data : List DbItem
  added : List DbItem
  removed : List DbItem
  total_new : Nat
  total_cached : Option Nat
  cache_hit : Bool
  debug_reason : String
deriving DecidableEq

/-- The `cached_data` dict for a query: active rows keyed by row hash
(lines 227-235). -/
def cachedDictOf (s : CacheState) (q : String) : List (String × Row) :=
  buildD ((s.row_cache.filter (fun e => e.query_hash == q)).map (fun e => (e.row_hash, e.row_data)))

/-- `added_hashes = new_hashes - cached_hashes` (line 241), as the list of
new-dict keys outside the cached keys (a deterministic refinement of
Python's unordered set difference). -/
def addedKeysOf (newDict : List (String × DbItem × Row)) (cachedDict : List (String × Row)) :
    List String :=
  (newDict.map Prod.fst).filter (fun h => !((cachedDict.map Prod.fst).contains h))

/-- `removed_hashes = cached_hashes - new_hashes` (line 242). -/
def removedKeysOf (newDict : List (String × DbItem × Row)) (cachedDict : List (String × Row)) :
    List String :=
  (cachedDict.map Prod.fst).filter (fun h => !((newDict.map Prod.fst).contains h))

/-- The two persisting branches of `process_select` (lines 212-265), after
the new rows have been hashed into `prepped`: either diff against the
cached snapshot and persist the changes (`cache_exists`), or save a
first-run snapshot. -/
def diffOrSave (now : Nat) (s1 : CacheState) (q sql : String) (items : List DbItem)
    (prepped : List (String × DbItem × Row)) : CacheState × Except PyErr SelectResult :=
  if cacheExists s1 q then
      (updateCache
          (if (removedKeysOf (buildD prepped) (cachedDictOf s1 q)).isEmpty then s1
           else moveToDeleted s1 q (removedKeysOf (buildD prepped) (cachedDictOf s1 q))
                  (cachedDictOf s1 q) now)
          q now (buildD prepped) (addedKeysOf (buildD prepped) (cachedDictOf s1 q)),
       .ok
         { data := (addedKeysOf (buildD prepped) (cachedDictOf s1 q)).map
             (fun h => (dfind (buildD prepped) h).1),
           added := (addedKeysOf (buildD prepped) (cachedDictOf s1 q)).map
             (fun h => (dfind (buildD prepped) h).1),
           removed := (removedKeysOf (buildD prepped) (cachedDictOf s1 q)).map
             (fun h => DbItem.tup (dfindR (cachedDictOf s1 q) h)),
           total_new := items.length,
           total_cached := some (cachedDictOf s1 q).length,
           cache_hit := true,
           debug_reason := "cache_persistent" })
    else
      (saveToCache s1 q sql now (buildD prepped),
       .ok
         { data := items,
           added := items,
           removed := [],
           total_new := items.length,
           total_cached := none,
           cache_hit := false,
           debug_reason := "first_time" })

/-- Body of `process_select` after the query has been executed (lines
203-265): hash the new rows (this loop can raise on a scalar row), then
branch on `cache_exists`. -/
def processSelectCore (now : Nat) (s1 : CacheState) (q sql : String) (items : List DbItem) :
    CacheState × Except PyErr SelectResult :=
  match prepItems items with
  | .error e => (s1, .error e)
  | .ok prepped => diffOrSave now s1 q sql items prepped

/-- `LocalCache.process_select` (lines 173-265): automatic cleanup first,
then query identity, collaborator execution, and the diff.  `H` is
`keep_deleted_hours`.  On an error raised after the cleanup the open diff
transaction commits nothing, so the post-cleanup state is returned. -/
def processSelect (conn : DbConn) (H now : Nat) (s : CacheState) (sql : String)
    (params : Option Params) : CacheState × Except PyErr SelectResult :=
  match executeOnDatabase conn sql params with
  | .error e => (cleanupDeleted H now s, .error e)
  | .ok items =>
    processSelectCore now (cleanupDeleted H now s) (getQueryHash sql params) sql items

/-- The stored active rows of a query as `get_all_data` returns them
(`tuple(json.loads(row[0]))` for every `row_cache` record of the query). -/
def activeItems (s : CacheState) (q : String) : List DbItem :=
  (s.row_cache.filter (fun e => e.query_hash == q)).map (fun e => DbItem.tup e.row_data)

/-- `LocalCache.get_all_data` (lines 267-285): cached snapshot when a query
cache entry exists, otherwise a transparent pass-through execution; no
writes on either path. -/
def getAllData (conn : DbConn) (s : CacheState) (sql : String) (params : Option Params) :
    CacheState × Except PyErr (List DbItem) :=
  if cacheExists s (getQueryHash sql params) = false then
    (s, executeOnDatabase conn sql params)
  else
    (s, .ok (activeItems s (getQueryHash sql params)))

/-- Python truthiness of the `hours_ago` argument (`if hours_ago:`):
`None` and `0` are falsy. -/
def hoursAgoTruthy : Option Nat → Bool
  | none => false
  | some h => !(h == 0)

/-- Stable insertion into a list sorted by `deleted_at` descending. -/
def insertByDeletedAt (e : DeletedEntry) : List DeletedEntry → List DeletedEntry
  | [] => [e]
  | x :: xs => if e.deleted_at ≤ x.deleted_at then x :: insertByDeletedAt e xs else e :: x :: xs

/-- `ORDER BY deleted_at DESC` as a stable sort of the scanned rows. -/
def sortByDeletedAtDesc (l : List DeletedEntry) : List DeletedEntry :=
  l.foldl (fun acc e => insertByDeletedAt e acc) []

/-- `LocalCache.get_deleted_records` (lines 287-314): this query's deleted
rows, restricted to the last `hours_ago` hours only when `hours_ago` is
truthy, newest first, each row extended with its deletion timestamp. -/
def getDeletedRecords (s : CacheState) (now : Nat) (sql : String) (params : Option Params)
    (hoursAgo : Option Nat) : List Row :=
  let q := getQueryHash sql params
  let matching :=
    if hoursAgoTruthy hoursAgo then
      s.deleted_rows.filter (fun e =>
        e.query_hash == q && decide (now < e.deleted_at + hoursAgo.getD 0))
    else
      s.deleted_rows.filter (fun e => e.query_hash == q)
  (sortByDeletedAtDesc matching).map (fun e => e.row_data ++ [Val.int e.deleted_at])

/-- Row identities currently Active for a query. -/
def activeHashes (s : CacheState) (q : String) : List String :=
  (s.row_cache.filter (fun e => e.query_hash == q)).map (fun e => e.row_hash)

/-- Row identities currently held as Deleted for a query. -/
def deletedHashes (s : CacheState) (q : String) : List String :=
  (s.deleted_rows.filter (fun e => e.query_hash == q)).map (fun e => e.row_hash)

/-- Row identities held as Deleted for a query whose retention window
(`H` hours) has not yet expired at time `now`. -/
def nonExpiredDeletedHashes (H now : Nat) (s : CacheState) (q : String) : List String :=
  (s.deleted_rows.filter (fun e => e.query_hash == q && !(decide (e.deleted_at + H < now)))).map
    (fun e => e.row_hash)

/-! ### Concrete scenarios used by counterexamples and witnesses -/

/-- The row `(1, "A")`. -/
def rowA : Row := [.int 1, .str "A"]

/-- The row `(2, "B")`. -/
def rowB : Row := [.int 2, .str "B"]

/-- The row `(3, "C")`. -/
def rowC : Row := [.int 3, .str "C"]

/-- A collaborator whose source currently holds rows `[(1,"A"), (2,"B")]`. -/
def connA : DbConn :=
  { className := "SourceDb",
    execute_query := some (fun _ _ => .ok (.pylist [.tup rowA, .tup rowB])) }

/-- A collaborator whose source currently holds rows `[(1,"A"), (3,"C")]`. -/
def connB : DbConn :=
  { className := "SourceDb",
    execute_query := some (fun _ _ => .ok (.pylist [.tup rowA, .tup rowC])) }

/-- Store after polling `[(1,"A"), (2,"B")]` at hour 0 on a fresh store. -/
def scnState1 : CacheState := (processSelect connA 24 0 emptyState "S" none).1

/-- Store after then polling `[(1,"A"), (3,"C")]` at hour 1: `(2,"B")` moves
to the deleted history. -/
def scnState2 : CacheState := (processSelect connB 24 1 scnState1 "S" none).1

/-- Store after then polling `[(1,"A"), (2,"B")]` again at hour 2: the row
`(2,"B")` re-appears while its deleted entry from hour 1 is still retained. -/
def scnState3 : CacheState := (processSelect connA 24 2 scnState2 "S" none).1

/-- A store holding one expired deleted entry (deleted at hour 0) and one
non-expired deleted entry (deleted at hour 10) for query hash `S\x7b\x7d`,
inspected at hour 25 with a 24-hour retention window. -/
def c4State : CacheState :=
  ⟨[], [],
   [⟨"S\x7b\x7d", "9|Z", [.int 9, .str "Z"], 0⟩,
    ⟨"S\x7b\x7d", "8|Y", [.int 8, .str "Y"], 10⟩]⟩

/-- A collaborator with none of the four query capabilities. -/
def noCapConn : DbConn := { className := "BareDb" }

/-- A collaborator whose `execute_query` itself raises. -/
def failConn : DbConn :=
  { className := "SourceDb",
    execute_query := some (fun _ _ => .error (.exception "ORA-00942 tabela inexistente")) }

/-! ### Helper lemmas -/

theorem mem_insertByDeletedAt {x e : DeletedEntry} {l : List DeletedEntry} :
    x ∈ insertByDeletedAt e l ↔ x = e ∨ x ∈ l := by
  induction l with
  | nil => simp [insertByDeletedAt]
  | cons a l ih =>
    unfold insertByDeletedAt
    split
    · simp only [List.mem_cons, ih]
      tauto
    · simp only [List.mem_cons]

theorem mem_sortByDeletedAtDesc {x : DeletedEntry} {l : List DeletedEntry} :
    x ∈ sortByDeletedAtDesc l ↔ x ∈ l := by
  have key : ∀ (l acc : List DeletedEntry),
      x ∈ l.foldl (fun acc e => insertByDeletedAt e acc) acc ↔ x ∈ acc ∨ x ∈ l := by
    intro l
    induction l with
    | nil => simp
    | cons a l ih =>
      intro acc
      simp only [List.foldl_cons, ih, mem_insertByDeletedAt, List.mem_cons]
      tauto
  simpa [sortByDeletedAtDesc] using key l []

theorem contains_of_mem {l : List String} {a : String} (ha : a ∈ l) : l.contains a = true := by
  simpa using ha

theorem mem_keys_dictUpd {α : Type} {m : List (String × α)} {k k2 : String} {v : α} :
    k2 ∈ (dictUpd m k v).map Prod.fst ↔ k2 ∈ m.map Prod.fst ∨ k2 = k := by
  induction m with
  | nil => simp [dictUpd]
  | cons p ps ih =>
    unfold dictUpd
    split
    · next hbeq =>
      have hk : p.1 = k := by simpa using hbeq
      simp only [List.map_cons, List.mem_cons, hk]
      tauto
    · next hbeq =>
      simp only [List.map_cons, List.mem_cons, ih]
      tauto

theorem keys_nodup_dictUpd {α : Type} {m : List (String × α)} (k : String) (v : α)
    (h : (m.map Prod.fst).Nodup) : ((dictUpd m k v).map Prod.fst).Nodup := by
  induction m with
  | nil => simp [dictUpd]
  | cons p ps ih =>
    have h1 : (p.1 :: ps.map Prod.fst).Nodup := by simpa only [List.map_cons] using h
    have h2 := List.nodup_cons.mp h1
    unfold dictUpd
    split
    · next hbeq =>
      have hk : p.1 = k := by simpa using hbeq
      simp only [List.map_cons]
      exact List.nodup_cons.mpr ⟨hk ▸ h2.1, h2.2⟩
    · next hbeq =>
      simp only [List.map_cons]
      rw [List.nodup_cons]
      refine ⟨?_, ih h2.2⟩
      rw [mem_keys_dictUpd]
      rintro (h3 | h3)
      · exact h2.1 h3
      · exact hbeq (by simp [h3])

theorem dictUpd_of_not_mem {α : Type} {m : List (String × α)} {k : String} (v : α)
    (h : k ∉ m.map Prod.fst) : dictUpd m k v = m ++ [(k, v)] := by
  induction m with
  | nil => rfl
  | cons p ps ih =>
    have h2 : ¬(k = p.1 ∨ k ∈ ps.map Prod.fst) := by simpa using h
    push_neg at h2
    unfold dictUpd
    rw [if_neg (by simp; exact fun hh => h2.1 hh.symm), ih h2.2]
    rfl

theorem keys_nodup_buildD {α : Type} (ps : List (String × α)) :
    ((buildD ps).map Prod.fst).Nodup := by
  suffices key : ∀ acc : List (String × α), (acc.map Prod.fst).Nodup →
      (((ps.foldl (fun m p => dictUpd m p.1 p.2) acc)).map Prod.fst).Nodup by
    exact key [] (by simp)
  induction ps with
  | nil => intro acc h; simpa using h
  | cons p ps ih =>
    intro acc h
    exact ih _ (keys_nodup_dictUpd _ _ h)

theorem buildD_go_eq {α : Type} :
    ∀ ps acc : List (String × α), ((acc ++ ps).map Prod.fst).Nodup →
      ps.foldl (fun m p => dictUpd m p.1 p.2) acc = acc ++ ps := by
  intro ps
  induction ps with
  | nil => intro acc _; simp
  | cons p ps ih =>
    intro acc h2
    have h3 : (acc.map Prod.fst ++ p.1 :: ps.map Prod.fst).Nodup := by
      simpa using h2
    have hnotin : p.1 ∉ acc.map Prod.fst := fun hmem =>
      (List.nodup_append.mp h3).2.2 hmem (by simp)
    simp only [List.foldl_cons]
    rw [dictUpd_of_not_mem p.2 hnotin]
    rw [ih (acc ++ [(p.1, p.2)]) (by simpa [List.append_assoc] using h2)]
    simp

theorem buildD_eq_self {α : Type} {ps : List (String × α)} (h : (ps.map Prod.fst).Nodup) :
    buildD ps = ps := by
  simpa using buildD_go_eq ps [] (by simpa using h)

theorem filter_not_contains_self (l : List String) :
    l.filter (fun h => !(l.contains h)) = [] := by
  rw [List.filter_eq_nil_iff]
  intro a ha
  simpa using ha

theorem addedKeysOf_self (nd : List (String × DbItem × Row)) :
    addedKeysOf nd (nd.map (fun p => (p.1, p.2.2))) = [] := by
  unfold addedKeysOf
  rw [List.map_map]
  exact filter_not_contains_self _

theorem removedKeysOf_self (nd : List (String × DbItem × Row)) :
    removedKeysOf nd (nd.map (fun p => (p.1, p.2.2))) = [] := by
  unfold removedKeysOf
  rw [List.map_map]
  exact filter_not_contains_self _

theorem mem_addedKeysOf {nd : List (String × DbItem × Row)} {cd : List (String × Row)}
    {h : String} (hm : h ∈ addedKeysOf nd cd) : h ∈ nd.map Prod.fst :=
  (List.mem_filter.mp hm).1

theorem mem_removedKeysOf {nd : List (String × DbItem × Row)} {cd : List (String × Row)}
    {h : String} (hm : h ∈ removedKeysOf nd cd) : h ∉ nd.map Prod.fst := by
  have h2 := (List.mem_filter.mp hm).2
  intro hmem
  rw [contains_of_mem hmem] at h2
  simp at h2

theorem mem_activeHashes {s : CacheState} {q h : String} :
    h ∈ activeHashes s q ↔ ∃ e ∈ s.row_cache, e.query_hash = q ∧ e.row_hash = h := by
  constructor
  · intro hmem
    obtain ⟨e, he, rfl⟩ := List.mem_map.mp hmem
    obtain ⟨he1, he2⟩ := List.mem_filter.mp he
    exact ⟨e, he1, by simpa using he2, rfl⟩
  · rintro ⟨e, he, hq, rfl⟩
    exact List.mem_map.mpr ⟨e, List.mem_filter.mpr ⟨he, by simpa using hq⟩, rfl⟩

theorem mem_deletedHashes {s : CacheState} {q h : String} :
    h ∈ deletedHashes s q ↔ ∃ e ∈ s.deleted_rows, e.query_hash = q ∧ e.row_hash = h := by
  constructor
  · intro hmem
    obtain ⟨e, he, rfl⟩ := List.mem_map.mp hmem
    obtain ⟨he1, he2⟩ := List.mem_filter.mp he
    exact ⟨e, he1, by simpa using he2, rfl⟩
  · rintro ⟨e, he, hq, rfl⟩
    exact List.mem_map.mpr ⟨e, List.mem_filter.mpr ⟨he, by simpa using hq⟩, rfl⟩

theorem deletedHashes_cleanup_sub {H now : Nat} {s : CacheState} {q h : String}
    (hm : h ∈ deletedHashes (cleanupDeleted H now s) q) : h ∈ deletedHashes s q := by
  rw [mem_deletedHashes] at hm ⊢
  obtain ⟨e, he, hq, hh⟩ := hm
  exact ⟨e, (List.mem_filter.mp he).1, hq, hh⟩

theorem mem_insertOrReplaceD_cases {l : List DeletedEntry} {e x : DeletedEntry}
    (hx : x ∈ insertOrReplaceD l e) : x ∈ l ∨ x = e := by
  unfold insertOrReplaceD at hx
  split at hx
  · obtain ⟨y, hy, hxy⟩ := List.mem_map.mp hx
    by_cases hc : (y.query_hash == e.query_hash && y.row_hash == e.row_hash) = true
    · rw [if_pos hc] at hxy
      exact Or.inr hxy.symm
    · rw [if_neg hc] at hxy
      exact Or.inl (hxy ▸ hy)
  · rcases List.mem_append.mp hx with h1 | h1
    · exact Or.inl h1
    · exact Or.inr (by simpa using h1)

theorem mem_foldl_insertOrReplaceD {es : List DeletedEntry} {l : List DeletedEntry}
    {x : DeletedEntry} (hx : x ∈ es.foldl insertOrReplaceD l) : x ∈ l ∨ x ∈ es := by
  induction es generalizing l with
  | nil => exact Or.inl (by simpa using hx)
  | cons e es ih =>
    simp only [List.foldl_cons] at hx
    rcases ih hx with h1 | h1
    · rcases mem_insertOrReplaceD_cases h1 with h2 | h2
      · exact Or.inl h2
      · exact Or.inr (by simp [h2])
    · exact Or.inr (by simp [h1])

theorem deleted_moveToDeleted {s1 : CacheState} {q : String} {RK : List String}
    {CD : List (String × Row)} {now : Nat} {h : String}
    (hm : h ∈ deletedHashes (moveToDeleted s1 q RK CD now) q) :
    h ∈ deletedHashes s1 q ∨ h ∈ RK := by
  rw [mem_deletedHashes] at hm
  obtain ⟨e, he, hq, hh⟩ := hm
  have he2 : e ∈ (RK.map (fun k => (⟨q, k, dfindR CD k, now⟩ : DeletedEntry))).foldl
      insertOrReplaceD s1.deleted_rows := he
  rcases mem_foldl_insertOrReplaceD he2 with h1 | h1
  · exact Or.inl (mem_deletedHashes.mpr ⟨e, h1, hq, hh⟩)
  · obtain ⟨k, hk, rfl⟩ := List.mem_map.mp h1
    exact Or.inr ((show k = h from hh) ▸ hk)

theorem active_moveToDeleted {s1 : CacheState} {q : String} {RK : List String}
    {CD : List (String × Row)} {now : Nat} {h : String}
    (hm : h ∈ activeHashes (moveToDeleted s1 q RK CD now) q) :
    h ∈ activeHashes s1 q ∧ h ∉ RK := by
  rw [mem_activeHashes] at hm
  obtain ⟨e, he, hq, hh⟩ := hm
  have he2 : e ∈ s1.row_cache.filter
      (fun e => !(e.query_hash == q && RK.contains e.row_hash)) := he
  obtain ⟨h1, h2⟩ := List.mem_filter.mp he2
  refine ⟨mem_activeHashes.mpr ⟨e, h1, hq, hh⟩, ?_⟩
  intro hR
  have h3 : (e.query_hash == q && RK.contains e.row_hash) = true := by
    rw [hq, hh, contains_of_mem hR]
    simp
  rw [h3] at h2
  simp at h2

theorem active_updateCache {s2 : CacheState} {q : String} {now : Nat}
    {ND : List (String × DbItem × Row)} {AK : List String} {h : String}
    (hm : h ∈ activeHashes (updateCache s2 q now ND AK) q) :
    h ∈ activeHashes s2 q ∨ h ∈ AK := by
  rw [mem_activeHashes] at hm
  obtain ⟨e, he, hq, hh⟩ := hm
  have he2 : e ∈ (if AK.isEmpty then s2.row_cache
      else s2.row_cache ++ AK.map (fun k => (⟨q, k, (dfind ND k).2⟩ : RowEntry))) := he
  split at he2
  · exact Or.inl (mem_activeHashes.mpr ⟨e, he2, hq, hh⟩)
  · rcases List.mem_append.mp he2 with h1 | h1
    · exact Or.inl (mem_activeHashes.mpr ⟨e, h1, hq, hh⟩)
    · obtain ⟨k, hk, rfl⟩ := List.mem_map.mp h1
      exact Or.inr ((show k = h from hh) ▸ hk)

theorem diffOrSave_active_deleted (now : Nat) (s1 : CacheState) (q sql : String)
    (items : List DbItem) (prepped : List (String × DbItem × Row)) (h : String) :
    h ∈ activeHashes (diffOrSave now s1 q sql items prepped).1 q →
    h ∈ deletedHashes (diffOrSave now s1 q sql items prepped).1 q →
    h ∈ deletedHashes s1 q := by
  unfold diffOrSave
  by_cases hce : cacheExists s1 q = true
  · rw [if_pos hce]
    by_cases hRK : (removedKeysOf (buildD prepped) (cachedDictOf s1 q)).isEmpty = true
    · rw [if_pos hRK]
      intro _ hdel
      exact hdel
    · rw [if_neg hRK]
      intro hact hdel
      rcases deleted_moveToDeleted hdel with h1 | h1
      · exact h1
      · rcases active_updateCache hact with h2 | h2
        · exact absurd h1 (active_moveToDeleted h2).2
        · exact absurd (mem_addedKeysOf h2) (mem_removedKeysOf h1)
  · rw [if_neg hce]
    intro _ hdel
    exact hdel

theorem core_active_deleted (now : Nat) (s1 : CacheState) (q sql : String)
    (items : List DbItem) (h : String) :
    h ∈ activeHashes (processSelectCore now s1 q sql items).1 q →
    h ∈ deletedHashes (processSelectCore now s1 q sql items).1 q →
    h ∈ deletedHashes s1 q := by
  unfold processSelectCore
  cases hP : prepItems items with
  | error e =>
    intro _ hdel
    exact hdel
  | ok prepped =>
    exact diffOrSave_active_deleted now s1 q sql items prepped h

theorem cacheExists_saveToCache (s : CacheState) (q sql : String) (now : Nat)
    (d : List (String × DbItem × Row)) :
    cacheExists (saveToCache s q sql now d) q = true := by
  show (insertOrReplaceQC s.query_cache ⟨q, sql, now, now, d.length⟩).any
      (fun e => e.query_hash == q) = true
  unfold insertOrReplaceQC
  split
  · next hany =>
    rw [List.any_eq_true] at hany ⊢
    obtain ⟨x, hx, hbx⟩ := hany
    exact ⟨⟨q, sql, now, now, d.length⟩, List.mem_map.mpr ⟨x, hx, if_pos hbx⟩, by simp⟩
  · rw [List.any_eq_true]
    exact ⟨⟨q, sql, now, now, d.length⟩, by simp, by simp⟩

theorem cachedDictOf_saveToCache (s : CacheState) (q sql : String) (now : Nat)
    (d : List (String × DbItem × Row)) (hnd : (d.map Prod.fst).Nodup) :
    cachedDictOf (saveToCache s q sql now d) q = d.map (fun p => (p.1, p.2.2)) := by
  have hrow : (saveToCache s q sql now d).row_cache.filter (fun e => e.query_hash == q) =
      d.map (fun p => (⟨q, p.1, p.2.2⟩ : RowEntry)) := by
    show (s.row_cache.filter (fun e => !(e.query_hash == q)) ++
        d.map (fun p => (⟨q, p.1, p.2.2⟩ : RowEntry))).filter (fun e => e.query_hash == q) = _
    rw [List.filter_append]
    have h1 : (s.row_cache.filter (fun e => !(e.query_hash == q))).filter
        (fun e => e.query_hash == q) = [] := by
      rw [@List.filter_filter]
      rw [List.filter_eq_nil_iff]
      intro a _
      simp
    have h2 : (d.map (fun p => (⟨q, p.1, p.2.2⟩ : RowEntry))).filter
        (fun e => e.query_hash == q) = d.map (fun p => (⟨q, p.1, p.2.2⟩ : RowEntry)) := by
      apply List.filter_eq_self.mpr
      intro e he
      obtain ⟨p, _, rfl⟩ := List.mem_map.mp he
      simp
    rw [h1, h2, List.nil_append]
  show buildD (((saveToCache s q sql now d).row_cache.filter
      (fun e => e.query_hash == q)).map (fun e => (e.row_hash, e.row_data))) = _
  rw [hrow, List.map_map]
  exact buildD_eq_self (by rw [List.map_map]; exact hnd)

theorem processSelectCore_first (now : Nat) (s1 : CacheState) (q sql : String)
    (items : List DbItem) (prepped : List (String × DbItem × Row))
    (hprep : prepItems items = .ok prepped) (hce : cacheExists s1 q = false) :
    processSelectCore now s1 q sql items =
      (saveToCache s1 q sql now (buildD prepped),
       .ok { data := items, added := items, removed := [], total_new := items.length,
             total_cached := none, cache_hit := false, debug_reason := "first_time" }) := by
  unfold processSelectCore
  rw [hprep]
  show diffOrSave now s1 q sql items prepped = _
  unfold diffOrSave
  rw [if_neg (by simp [hce])]

theorem processSelectCore_unchanged (now : Nat) (s1 : CacheState) (q sql : String)
    (items : List DbItem) (prepped : List (String × DbItem × Row))
    (hprep : prepItems items = .ok prepped) (hce : cacheExists s1 q = true)
    (hCD : cachedDictOf s1 q = (buildD prepped).map (fun p => (p.1, p.2.2))) :
    processSelectCore now s1 q sql items =
      (updateCache s1 q now (buildD prepped) [],
       .ok { data := [], added := [], removed := [], total_new := items.length,
             total_cached := some (buildD prepped).length, cache_hit := true,
             debug_reason := "cache_persistent" }) := by
  unfold processSelectCore
  rw [hprep]
  show diffOrSave now s1 q sql items prepped = _
  unfold diffOrSave
  rw [if_pos hce, hCD, addedKeysOf_self, removedKeysOf_self]
  simp

/-! ### Claim theorems -/

/-- C2: on a fresh store, polling `[(1,"A"), (2,"B")]` returns both rows as
added, nothing removed, and `cache_hit = false`; the next poll of the same
query returning `[(1,"A"), (3,"C")]` yields `added = [(3,"C")]`,
`removed = [(2,"B")]`, `cache_hit = true`. -/
theorem c2_example_scenario :
    (processSelect connA 24 0 emptyState "S" none).2 =
      .ok { data := [.tup rowA, .tup rowB], added := [.tup rowA, .tup rowB], removed := [],
            total_new := 2, total_cached := none, cache_hit := false,
            debug_reason := "first_time" } ∧
    (processSelect connB 24 1 scnState1 "S" none).2 =
      .ok { data := [.tup rowC], added := [.tup rowC], removed := [.tup rowB],
            total_new := 2, total_cached := some 2, cache_hit := true,
            debug_reason := "cache_persistent" } :=
  ⟨rfl, rfl⟩

/-- C8: `_ensure_tuple_format` decides the shape of the whole result from
its first element only: a non-empty list whose first element is a tuple is
returned unchanged even when later elements are lists or dicts, and a
non-empty list whose first element is neither a tuple, a list, nor a dict
normalizes to the empty list — every row is silently dropped, no error is
raised. -/
theorem c8_first_element_decides_shape :
    (∀ (r : Row) (rest : List DbItem),
        ensureTupleFormat (.pylist (.tup r :: rest)) = .ok (.tup r :: rest)) ∧
    (∀ (v : Val) (rest : List DbItem),
        ensureTupleFormat (.pylist (.scalar v :: rest)) = .ok []) :=
  ⟨fun _ _ => rfl, fun _ _ => rfl⟩

/-- C9: `get_deleted_records` with `hours_ago = 0` behaves exactly like
omitting `hours_ago` (`if hours_ago:` is false for `0`), so all deleted
entries of the query are returned rather than none. -/
theorem c9_hours_ago_zero_like_none (s : CacheState) (now : Nat) (sql : String)
    (params : Option Params) :
    getDeletedRecords s now sql params (some 0) = getDeletedRecords s now sql params none :=
  rfl

/-- C10: for every SQL text, `params = None` and `params = \x7b\x7d` yield
the same Query Identity (`str(params or \x7b\x7d)` maps both to the empty
dict), hence the same query-cache lookup and the same stored active rows. -/
theorem c10_none_empty_params_same_identity (sql : String) :
    getQueryHash sql none = getQueryHash sql (some []) ∧
    (∀ s : CacheState,
      cacheExists s (getQueryHash sql none) = cacheExists s (getQueryHash sql (some [])) ∧
      activeItems s (getQueryHash sql none) = activeItems s (getQueryHash sql (some []))) :=
  ⟨rfl, fun _ => ⟨rfl, rfl⟩⟩

/-- C5 counterexample: the Query Identity computation is not injective —
two different invocations, one with `params = None` and one with
`params = \x7b\x7d`, yield the same identity. -/
theorem c5_counterexample :
    getQueryHash "SELECT 1" none = getQueryHash "SELECT 1" (some []) ∧
    (none : Option Params) ≠ some [] :=
  ⟨rfl, by decide⟩

/-- C5 amended: the Query Identity computation is deterministic and, with
the parameters fixed, injective in the SQL text (the identity pre-image is
the SQL text followed by the textual form of the parameters); but
`params = None` and `params = \x7b\x7d` collide, so injectivity on the full
input only holds after identifying `None` with the empty mapping (and
modulo collisions of the underlying textual encoding and md5 fingerprint,
which are not injective in general). -/
theorem c5_amended :
    (∀ (sql1 sql2 : String) (params : Option Params),
        getQueryHash sql1 params = getQueryHash sql2 params → sql1 = sql2) ∧
    (∀ sql : String, getQueryHash sql none = getQueryHash sql (some [])) := by
  constructor
  · intro sql1 sql2 params h
    unfold getQueryHash at h
    have h2 := congrArg String.data h
    rw [String.data_append, String.data_append] at h2
    exact String.ext (List.append_cancel_right h2)
  · intro sql
    rfl

theorem c5_amended_witness :
    ("SELECT a" : String) = "SELECT a" ∧
    getQueryHash "SELECT a" none = getQueryHash "SELECT a" (some []) :=
  ⟨c5_amended.1 "SELECT a" "SELECT a" none rfl, c5_amended.2 "SELECT a"⟩

/-- C6 counterexample: a collaborator with no query capability and a
collaborator whose query execution raises produce errors of the SAME
exception class — the blanket `except Exception` of
`_execute_on_database` wraps the internal `AttributeError` exactly like a
collaborator failure, so no `ConfigurationError` distinguishable from a
`DataSourceError` ever reaches the caller. -/
theorem c6_counterexample :
    exceptErrClass (executeOnDatabase noCapConn "SELECT 1" none) = some "Exception" ∧
    exceptErrClass (executeOnDatabase failConn "SELECT 1" none) = some "Exception" ∧
    exceptErrClass (executeOnDatabase noCapConn "SELECT 1" none) =
      exceptErrClass (executeOnDatabase failConn "SELECT 1" none) :=
  ⟨rfl, rfl, rfl⟩

/-- C6 amended: when the collaborator has none of the four capabilities the
executor raises an `AttributeError` naming them, but its own handler
re-wraps it — exactly like a failure of the collaborator's query execution
— in one generic `Exception` with the fixed prefix, so the two failure
kinds are distinguishable only by message content, never by exception
class. -/
theorem c6_amended (conn : DbConn) (sql : String) (params : Option Params) :
    (conn.execute_query = none → conn.query = none → conn.fetch_all = none →
      conn.select = none →
      executeOnDatabase conn sql params =
        .error (.exception ("Erro ao executar query no banco: " ++
          ("Classe " ++ conn.className ++
           " não possui método compatível (execute_query, query, fetch_all, ou select)")))) ∧
    (∀ (f : String → Option Params → Except PyErr DbResult) (e : PyErr),
      conn.execute_query = some f → f sql params = .error e →
      executeOnDatabase conn sql params =
        .error (.exception ("Erro ao executar query no banco: " ++ pyErrMsg e))) := by
  constructor
  · intro h1 h2 h3 h4
    simp [executeOnDatabase, capabilityOf, h1, h2, h3, h4, pyErrMsg]
  · intro f e hf he
    simp [executeOnDatabase, capabilityOf, hf, he]

theorem c6_amended_witness :
    executeOnDatabase noCapConn "SELECT 1" none =
      .error (.exception ("Erro ao executar query no banco: " ++
        ("Classe " ++ noCapConn.className ++
         " não possui método compatível (execute_query, query, fetch_all, ou select)"))) ∧
    executeOnDatabase failConn "SELECT 1" none =
      .error (.exception ("Erro ao executar query no banco: " ++
        pyErrMsg (.exception "ORA-00942 tabela inexistente"))) :=
  ⟨(c6_amended noCapConn "SELECT 1" none).1 rfl rfl rfl rfl,
   (c6_amended failConn "SELECT 1" none).2 _ _ rfl rfl⟩

/-- C4 counterexample: an expired Deleted Row Entry is NOT absent from
`get_deleted_records()` before a cleanup has run — the retrieval applies no
retention filter of its own.  In `c4State` the entry deleted at hour 0 is
expired at hour 25 under a 24-hour window, yet it is still returned. -/
theorem c4_counterexample :
    (0 + 24 < 25) ∧
    getDeletedRecords c4State 25 "S" none none =
      [[Val.int 8, Val.str "Y", Val.int 10], [Val.int 9, Val.str "Z", Val.int 0]] :=
  ⟨by decide, rfl⟩

/-- C4 amended: cleanup (run automatically at the start of every
`process_select`, or manually) physically removes exactly the Deleted Row
Entries whose deletion timestamp is outside the retention window, after
which `get_deleted_records()` returns only rows of non-expired entries;
an entry within the window survives cleanup and remains present.  Before a
cleanup runs, however, `get_deleted_records()` still returns expired
entries. -/
theorem c4_amended (H now : Nat) (s : CacheState) (sql : String) (params : Option Params) :
    (∀ e : DeletedEntry,
        e ∈ (cleanupDeleted H now s).deleted_rows ↔
          e ∈ s.deleted_rows ∧ ¬(e.deleted_at + H < now)) ∧
    (∀ e ∈ s.deleted_rows, e.query_hash = getQueryHash sql params →
        ¬(e.deleted_at + H < now) →
        e.row_data ++ [Val.int e.deleted_at] ∈
          getDeletedRecords (cleanupDeleted H now s) now sql params none) ∧
    (∀ r ∈ getDeletedRecords (cleanupDeleted H now s) now sql params none,
        ∃ e, e ∈ s.deleted_rows ∧ ¬(e.deleted_at + H < now) ∧
          r = e.row_data ++ [Val.int e.deleted_at]) := by
  refine ⟨?_, ?_, ?_⟩
  · intro e
    simp [cleanupDeleted, List.mem_filter]
  · intro e he hq hexp
    simp only [getDeletedRecords, hoursAgoTruthy, Bool.false_eq_true, if_false, List.mem_map]
    refine ⟨e, ?_, rfl⟩
    rw [mem_sortByDeletedAtDesc, List.mem_filter]
    refine ⟨?_, by simp [hq]⟩
    simp [cleanupDeleted, List.mem_filter, he, hexp]
  · intro r hr
    simp only [getDeletedRecords, hoursAgoTruthy, Bool.false_eq_true, if_false,
      List.mem_map] at hr
    obtain ⟨e, he, hre⟩ := hr
    rw [mem_sortByDeletedAtDesc, List.mem_filter] at he
    obtain ⟨hmem, -⟩ := he
    simp only [cleanupDeleted, List.mem_filter, Bool.not_eq_true', decide_eq_false_iff_not] at hmem
    exact ⟨e, hmem.1, hmem.2, hre.symm⟩

theorem c4_amended_witness :
    [Val.int 8, Val.str "Y", Val.int 10] ∈
      getDeletedRecords (cleanupDeleted 24 25 c4State) 25 "S" none none :=
  (c4_amended 24 25 c4State "S" none).2.1
    ⟨"S\x7b\x7d", "8|Y", [Val.int 8, Val.str "Y"], 10⟩ (by decide) (by decide) (by decide)

/-- C7: `get_all_data` never writes any of the three tables; when a query
cache entry exists it returns the stored active rows exactly as last
persisted, independently of the database collaborator (no fresh query), and
otherwise it transparently executes the query and returns the normalized
raw result. -/
theorem c7_get_all_data_frame (conn : DbConn) (s : CacheState) (sql : String)
    (params : Option Params) :
    (getAllData conn s sql params).1 = s ∧
    (cacheExists s (getQueryHash sql params) = true →
      ∀ conn2 : DbConn,
        (getAllData conn2 s sql params).2 = .ok (activeItems s (getQueryHash sql params))) ∧
    (cacheExists s (getQueryHash sql params) = false →
      (getAllData conn s sql params).2 = executeOnDatabase conn sql params) := by
  refine ⟨?_, ?_, ?_⟩
  · unfold getAllData
    split <;> rfl
  · intro h conn2
    simp [getAllData, h]
  · intro h
    simp [getAllData, h]

theorem c7_get_all_data_frame_witness :
    (getAllData connA scnState1 "S" none).1 = scnState1 ∧
    (getAllData connB scnState1 "S" none).2 =
      .ok (activeItems scnState1 (getQueryHash "S" none)) ∧
    (getAllData connA emptyState "S" none).2 = executeOnDatabase connA "S" none :=
  ⟨(c7_get_all_data_frame connA scnState1 "S" none).1,
   (c7_get_all_data_frame connA scnState1 "S" none).2.1 (by decide) connB,
   (c7_get_all_data_frame connA emptyState "S" none).2.2 (by decide)⟩

/-- C1 counterexample: the Active/Deleted disjointness invariant fails when
a row removed in one poll re-appears in a later poll inside the retention
window.  After polling `[(1,"A"),(2,"B")]`, then `[(1,"A"),(3,"C")]` (which
moves `(2,"B")` to Deleted at hour 1), then `[(1,"A"),(2,"B")]` again at
hour 2, the identity of `(2,"B")` is simultaneously an Active Row Entry and
a non-expired Deleted Row Entry for the same query — even though it is
present in the latest poll result. -/
theorem c1_counterexample :
    (processSelect connA 24 2 scnState2 "S" none).2 =
      .ok { data := [.tup rowB], added := [.tup rowB], removed := [.tup rowC],
            total_new := 2, total_cached := some 2, cache_hit := true,
            debug_reason := "cache_persistent" } ∧
    "2|B" ∈ activeHashes scnState3 (getQueryHash "S" none) ∧
    "2|B" ∈ nonExpiredDeletedHashes 24 2 scnState3 (getQueryHash "S" none) :=
  ⟨rfl, by decide, by decide⟩

/-- C1 amended: after any `process_select` call, every row identity that is
simultaneously Active and Deleted for the query was already Deleted before
the call — `process_select` never records an identity of the latest poll as
newly Deleted (a removed identity is dropped from Active, an added one is
absent from the removed set).  It does not, however, purge a stale Deleted
entry when its row re-appears, so an overlap created by an earlier poll
persists. -/
theorem c1_amended (conn : DbConn) (H now : Nat) (s : CacheState) (sql : String)
    (params : Option Params) (h : String)
    (hact : h ∈ activeHashes (processSelect conn H now s sql params).1 (getQueryHash sql params))
    (hdel : h ∈ deletedHashes (processSelect conn H now s sql params).1 (getQueryHash sql params)) :
    h ∈ deletedHashes s (getQueryHash sql params) := by
  revert hact hdel
  unfold processSelect
  cases hE : executeOnDatabase conn sql params with
  | error e =>
    intro _ hdel
    exact deletedHashes_cleanup_sub hdel
  | ok items =>
    intro hact hdel
    exact deletedHashes_cleanup_sub
      (core_active_deleted now (cleanupDeleted H now s) (getQueryHash sql params) sql items h
        hact hdel)

theorem c1_amended_witness :
    "2|B" ∈ activeHashes scnState3 (getQueryHash "S" none) ∧
    "2|B" ∈ deletedHashes scnState3 (getQueryHash "S" none) ∧
    "2|B" ∈ deletedHashes scnState2 (getQueryHash "S" none) :=
  ⟨by decide, by decide,
   c1_amended connA 24 2 scnState2 "S" none "2|B" (by decide) (by decide)⟩

/-- C3: for every query and every result set that hashes successfully, two
consecutive `process_select` calls against an unchanged source return all
rows as `added` with `cache_hit = false` on the first (fresh) call, and an
empty `added`, an empty `removed`, and `cache_hit = true` on the second. -/
theorem c3_idempotent_first_run (conn : DbConn) (H now1 now2 : Nat) (s0 : CacheState)
    (sql : String) (params : Option Params) (items : List DbItem)
    (prepped : List (String × DbItem × Row))
    (hconn : executeOnDatabase conn sql params = .ok items)
    (hprep : prepItems items = .ok prepped)
    (hfresh : cacheExists s0 (getQueryHash sql params) = false) :
    (∃ res1 : SelectResult,
        (processSelect conn H now1 s0 sql params).2 = .ok res1 ∧
        res1.added = items ∧ res1.removed = [] ∧ res1.cache_hit = false) ∧
    (∃ res2 : SelectResult,
        (processSelect conn H now2 (processSelect conn H now1 s0 sql params).1 sql params).2 =
          .ok res2 ∧
        res2.added = [] ∧ res2.removed = [] ∧ res2.cache_hit = true) := by
  have hfresh1 : cacheExists (cleanupDeleted H now1 s0) (getQueryHash sql params) = false :=
    hfresh
  have hfirst : processSelect conn H now1 s0 sql params =
      (saveToCache (cleanupDeleted H now1 s0) (getQueryHash sql params) sql now1
         (buildD prepped),
       .ok { data := items, added := items, removed := [], total_new := items.length,
             total_cached := none, cache_hit := false, debug_reason := "first_time" }) := by
    unfold processSelect
    simp only [hconn]
    exact processSelectCore_first now1 _ _ sql items prepped hprep hfresh1
  refine ⟨⟨_, by rw [hfirst], rfl, rfl, rfl⟩, ?_⟩
  have hce2 : cacheExists (cleanupDeleted H now2 (saveToCache (cleanupDeleted H now1 s0)
      (getQueryHash sql params) sql now1 (buildD prepped))) (getQueryHash sql params) = true :=
    cacheExists_saveToCache _ _ sql now1 _
  have hCD : cachedDictOf (cleanupDeleted H now2 (saveToCache (cleanupDeleted H now1 s0)
      (getQueryHash sql params) sql now1 (buildD prepped))) (getQueryHash sql params) =
      (buildD prepped).map (fun p => (p.1, p.2.2)) :=
    cachedDictOf_saveToCache _ _ sql now1 _ (keys_nodup_buildD prepped)
  have hsecond : processSelect conn H now2 (processSelect conn H now1 s0 sql params).1
      sql params =
      (updateCache (cleanupDeleted H now2 (saveToCache (cleanupDeleted H now1 s0)
         (getQueryHash sql params) sql now1 (buildD prepped))) (getQueryHash sql params) now2
         (buildD prepped) [],
       .ok { data := [], added := [], removed := [], total_new := items.length,
             total_cached := some (buildD prepped).length, cache_hit := true,
             debug_reason := "cache_persistent" }) := by
    rw [hfirst]
    unfold processSelect
    simp only [hconn]
    exact processSelectCore_unchanged now2 _ _ sql items prepped hprep hce2 hCD
  exact ⟨_, by rw [hsecond], rfl, rfl, rfl⟩

theorem c3_idempotent_first_run_witness :
    (∃ res1 : SelectResult,
        (processSelect connA 24 0 emptyState "S" none).2 = .ok res1 ∧
        res1.added = [.tup rowA, .tup rowB] ∧ res1.removed = [] ∧ res1.cache_hit = false) ∧
    (∃ res2 : SelectResult,
        (processSelect connA 24 1 (processSelect connA 24 0 emptyState "S" none).1 "S" none).2 =
          .ok res2 ∧
        res2.added = [] ∧ res2.removed = [] ∧ res2.cache_hit = true) :=
  c3_idempotent_first_run connA 24 0 1 emptyState "S" none [.tup rowA, .tup rowB]
    [("1|A", .tup rowA, rowA), ("2|B", .tup rowB, rowB)] rfl rfl rfl

end LocalCache
